import Mathlib

set_option maxHeartbeats 1000000

/-!
Verification of the SumGame core (grid state machine, selection tracker and
session orchestration of `src/App.tsx` and `src/types.ts`).

The React component state is embedded as an explicit `AppState` record and
every handler becomes a pure state-transition function.  Randomness
(`createBlock`'s random id and value, `generateTarget`) is modelled by
explicit oracle parameters: `mk : Nat → Block` supplies the blocks produced
by successive `createBlock()` calls of one operation, and fresh targets are
passed in as arguments.  The configuration constants `GRID_ROWS`, `GRID_COLS`,
`INITIAL_ROWS`, `TIME_LIMIT` (imported by the source from `constants.ts`) are
kept abstract as parameters `R`, `C`, `IR`, `TL`.  The deferred `setTimeout`
applying a match's effects is collapsed to a synchronous application, as the
spec explicitly allows.
-/

namespace SumGame

/-- A numbered block (`types.ts`): stable string id, integer value and the
transient selected flag (`createBlock` always initialises it to `false`). -/
structure Block where
  id : String
  value : Int
  isSelected : Bool
deriving DecidableEq

/-- The two game modes of `types.ts`. -/
inductive GameMode where
  | classic
  | time
deriving DecidableEq

/-- Classification of one selection toggle: the three branches of the sum
check inside `handleBlockClick`. -/
inductive Outcome where
  | CONTINUE
  | EXACT_MATCH
  | EXCEEDED
deriving DecidableEq

/-- The grid `(Block | null)[][]`, row-major; row 0 is the top boundary row. -/
abbrev Grid := List (List (Option Block))

/-- `createBlock` of `App.tsx`, with the randomly drawn id and value supplied
by the caller. -/
def createBlock (i : String) (v : Int) : Block :=
  { id := i, value := v, isSelected := false }

/-- The component state: one field per `useState` hook of the game core. -/
structure AppState where
  mode : GameMode
  grid : Grid
  targetSum : Int
  score : Int
  highScore : Int
  isGameOver : Bool
  timeLeft : Nat
  selectedIds : List String
  isPaused : Bool
deriving DecidableEq

/-- The occupancy test `prev[0].some((cell) => cell !== null)` on the top row. -/
def topRowOccupied (g : Grid) : Bool :=
  (g.headD []).any (fun c => c.isSome)

/-- `addNewRow` of `App.tsx`.  If the top row is occupied it only sets the
game-over flag and returns the grid untouched; otherwise rows `0 .. R-2` are
overwritten with rows `1 .. R-1` and a brand-new row of `C` blocks (the `C`
`createBlock()` calls modelled by `mk`) is written at row `R-1`.  In both
branches the trailing `setTimeLeft(TIME_LIMIT)` resets the countdown. -/
def addNewRow (R C TL : Nat) (mk : Nat → Block) (s : AppState) : AppState :=
  if topRowOccupied s.grid then
    { s with isGameOver := true, timeLeft := TL }
  else
    { s with
      grid := (List.range (R - 1)).map (fun r => (s.grid[r + 1]?).getD [])
                ++ [(List.range C).map (fun c => some (mk c))],
      timeLeft := TL }

/-- `initGame` of `App.tsx`: an all-empty `R × C` grid whose bottom `IR`
(`INITIAL_ROWS`) rows are filled with fresh blocks; score 0, flags cleared,
countdown reset.  The high score `hs` is not reset by the source. -/
def initGame (R C IR TL : Nat) (mk : Nat → Block) (tgt : Int) (mode : GameMode) (hs : Int) : AppState :=
  { mode := mode,
    grid := (List.range R).map (fun r =>
      (List.range C).map (fun c => if R - IR ≤ r then some (mk (r * C + c)) else none)),
    targetSum := tgt,
    score := 0,
    highScore := hs,
    isGameOver := false,
    timeLeft := TL,
    selectedIds := [],
    isPaused := false }

/-- Resolution of a selected id against the live grid:
`grid.flat().find((item) => item?.id === id)` with the `b?.value || 0`
fallback, so an id with no live block contributes `0`. -/
def resolveValue (g : Grid) (i : String) : Int :=
  match g.flatten.find? (fun o =>
      match o with
      | some b => b.id == i
      | none => false) with
  | some (some b) => b.value
  | _ => 0

/-- The sum reduction of `handleBlockClick`:
`next.reduce((sum, id) => sum + (b?.value || 0), 0)`. -/
def selectionSum (g : Grid) (sel : List String) : Int :=
  sel.foldl (fun acc i => acc + resolveValue g i) 0

/-- The flattened list of live (non-null) blocks of a grid, the read-only
`flatten()` helper the Selection Tracker resolves ids against. -/
def liveBlocks (g : Grid) : List Block :=
  g.flatten.filterMap (fun o => o)

/-- The selection update of `handleBlockClick`: drop the id if already
selected (`prev.filter((id) => id !== block.id)`), otherwise append it. -/
def toggleNext (sel : List String) (i : String) : List String :=
  if sel.contains i then sel.filter (fun j => j != i) else sel ++ [i]

/-- The Selection Tracker view of one click (the sum-check branches of
`handleBlockClick`): the updated selection is summed against the live grid
and classified as exact match, exceeded, or continue. -/
def toggle (g : Grid) (target : Int) (sel : List String) (i : String) : List String × Outcome :=
  let next := toggleNext sel i
  let currentSum := selectionSum g next
  if currentSum = target then ([], Outcome.EXACT_MATCH)
  else if currentSum > target then ([], Outcome.EXCEEDED)
  else (next, Outcome.CONTINUE)

/-- The removal map of `removeBlocks`: every cell whose occupant's id is in
`ids` becomes `null`; all other cells are untouched. -/
def eraseBlocks (ids : List String) (g : Grid) : Grid :=
  g.map (fun row => row.map (fun cell =>
    match cell with
    | some b => if ids.contains b.id then none else some b
    | none => none))

/-- One column of the gravity loop of `removeBlocks`: scanning row index
`r = fuel - 1` downward with write cursor `e` (`emptyRow`), every non-null
cell is cleared and rewritten at `e`, which then moves up by one. -/
def gravityPass : List (Option Block) → Nat → Nat → List (Option Block)
  | col, 0, _ => col
  | col, r + 1, e =>
    match (col[r]?).getD none with
    | some b => gravityPass ((col.set r none).set e (some b)) r (e - 1)
    | none => gravityPass col r e

/-- Gravity on a single column: the loop starts at the bottom row with
`emptyRow = R - 1`. -/
def gravityCol (col : List (Option Block)) : List (Option Block) :=
  gravityPass col col.length (col.length - 1)

/-- Column `c` of a grid, read top to bottom. -/
def getCol (g : Grid) (c : Nat) : List (Option Block) :=
  g.map (fun row => (row[c]?).getD none)

/-- The gravity phase of `removeBlocks` on the whole grid: each of the `C`
columns is compacted independently by `gravityCol` and the grid is
reassembled row-major. -/
def compactGravity (R C : Nat) (g : Grid) : Grid :=
  (List.range R).map (fun r =>
    (List.range C).map (fun c => ((gravityCol (getCol g c))[r]?).getD none))

/-- The grid effect of `removeBlocks`: clear the matched ids, then gravity. -/
def removeBlocksGrid (R C : Nat) (ids : List String) (g : Grid) : Grid :=
  compactGravity R C (eraseBlocks ids g)

/-- `removeBlocks` of `App.tsx` at state level: updates the grid and clears
the selection (`setSelectedIds([])`). -/
def removeBlocksState (R C : Nat) (ids : List String) (s : AppState) : AppState :=
  { s with grid := removeBlocksGrid R C ids s.grid, selectedIds := [] }

/-- `handleBlockClick` of `App.tsx`, with the deferred match effects applied
synchronously: ignore the click when the game is over or paused; otherwise
toggle the id, sum the updated selection, and on an exact match remove the
blocks, add `10` points per selected id, install the regenerated target
`newTarget`, and (classic mode) insert a new row; on an exceeded sum only the
selection is cleared; otherwise the updated selection is kept. -/
def handleBlockClick (R C TL : Nat) (mk : Nat → Block) (newTarget : Int) (s : AppState) (b : Block) : AppState :=
  if s.isGameOver || s.isPaused then s
  else
    let next := toggleNext s.selectedIds b.id
    let currentSum := selectionSum s.grid next
    if currentSum = s.targetSum then
      let s1 := removeBlocksState R C next { s with selectedIds := [] }
      let s2 := { s1 with score := s1.score + (next.length : Int) * 10, targetSum := newTarget }
      if s.mode = GameMode.classic then addNewRow R C TL mk s2 else s2
    else if currentSum > s.targetSum then { s with selectedIds := [] }
    else { s with selectedIds := next }

/-- Number of live cells of the grid whose block id belongs to `ids`: the
cells a `removeBlocks ids` call clears. -/
def clearedCount (g : Grid) (ids : List String) : Nat :=
  (liveBlocks g).countP (fun b => ids.contains b.id)

/-- A run of successful matches: `MatchRun R C TL s ks s'` relates a state
`s` to the state `s'` obtained by a sequence of clicks each of which is
processed (not gated away), sums exactly to the current target, and clears
precisely the `k` selected blocks; `ks` records the per-match cleared
counts. -/
inductive MatchRun (R C TL : Nat) : AppState → List Nat → AppState → Prop where
  | nil : ∀ s, MatchRun R C TL s [] s
  | step : ∀ (s : AppState) (b : Block) (mk : Nat → Block) (tgt : Int) (k : Nat)
      (ks : List Nat) (s' : AppState),
      s.isGameOver = false →
      s.isPaused = false →
      selectionSum s.grid (toggleNext s.selectedIds b.id) = s.targetSum →
      clearedCount s.grid (toggleNext s.selectedIds b.id) = k →
      (toggleNext s.selectedIds b.id).length = k →
      MatchRun R C TL (handleBlockClick R C TL mk tgt s b) ks s' →
      MatchRun R C TL s (k :: ks) s'

/-! Concrete fixtures used by the witness theorems. -/

/-- A block of value 2 with id `"a"`. -/
def blockA : Block := createBlock "a" 2

/-- A block of value 3 with id `"b"`. -/
def blockB : Block := createBlock "b" 3

/-- A block of value 5 with id `"v"`. -/
def blockV : Block := createBlock "v" 5

/-- A one-row grid holding `blockA` and `blockB`. -/
def gridAB : Grid := [[some blockA, some blockB]]

/-- A one-cell grid holding `blockV`. -/
def gridV : Grid := [[some blockV]]

/-- A 2 × 2 grid with two holes, for the gravity witness. -/
def gridHoles : Grid := [[some blockA, none], [none, some blockB]]

/-- A 2 × 1 grid with an empty top row, for the row-insertion witness. -/
def gridShift : Grid := [[none], [some blockA]]

/-- A deterministic block supply for witnesses: value 1, numeric ids. -/
def mkOne : Nat → Block := fun n => createBlock (toString n) 1

/-- A deterministic block supply for witnesses: value 5, numeric ids. -/
def mkFive : Nat → Block := fun n => createBlock (toString n) 5

/-- A playing state over `gridV` with target 3, used by the exceeded-frame
witness. -/
def stateV : AppState :=
  { mode := GameMode.classic, grid := gridV, targetSum := 3, score := 7,
    highScore := 0, isGameOver := false, timeLeft := 9, selectedIds := [],
    isPaused := false }

/-- A playing state whose top row is occupied, used by the game-over witness. -/
def stateTop : AppState :=
  { mode := GameMode.time, grid := gridAB, targetSum := 5, score := 0,
    highScore := 0, isGameOver := false, timeLeft := 4, selectedIds := [],
    isPaused := false }

/-- A playing state over `gridShift`, used by the row-insertion witness. -/
def stateShift : AppState :=
  { mode := GameMode.time, grid := gridShift, targetSum := 5, score := 0,
    highScore := 0, isGameOver := false, timeLeft := 4, selectedIds := [],
    isPaused := false }

/-! Helper lemmas. -/

theorem foldl_add_sum (f : String → Int) (l : List String) : ∀ (a : Int),
    l.foldl (fun acc i => acc + f i) a = a + (l.map f).sum := by
  induction l with
  | nil => intro a; simp
  | cons i l ih => intro a; simp [ih, add_assoc]

theorem selectionSum_append (g : Grid) (sel : List String) (i : String) :
    selectionSum g (sel ++ [i]) = selectionSum g sel + resolveValue g i := by
  simp [selectionSum, foldl_add_sum]

theorem contains_true_iff {sel : List String} {i : String} :
    sel.contains i = true ↔ i ∈ sel :=
  List.elem_iff

theorem filter_bne_of_not_mem {sel : List String} {i : String} (h : i ∉ sel) :
    sel.filter (fun j => j != i) = sel := by
  apply List.filter_eq_self.mpr
  intro a ha
  exact bne_iff_ne.mpr (fun hai => h (hai ▸ ha))

theorem filter_bne_append_perm (sel : List String) (i : String)
    (hmem : i ∈ sel) (hnd : sel.Nodup) :
    (sel.filter (fun j => j != i) ++ [i]).Perm sel := by
  induction sel with
  | nil => cases hmem
  | cons a t ih =>
    rcases List.mem_cons.mp hmem with rfl | hmem'
    · have hni : i ∉ t := (List.nodup_cons.mp hnd).1
      rw [List.filter_cons, if_neg (by simp), filter_bne_of_not_mem hni]
      exact List.perm_append_singleton i t
    · have hat : a ∉ t := (List.nodup_cons.mp hnd).1
      have hai : (a != i) = true := by
        apply bne_iff_ne.mpr
        intro h
        exact hat (h ▸ hmem')
      rw [List.filter_cons, if_pos hai, List.cons_append]
      exact List.Perm.cons a (ih hmem' (List.nodup_cons.mp hnd).2)

theorem toggle_continue_of_lt (g : Grid) (target : Int) (sel : List String) (i : String)
    (h : selectionSum g (toggleNext sel i) < target) :
    toggle g target sel i = (toggleNext sel i, Outcome.CONTINUE) := by
  simp only [toggle]
  rw [if_neg (by omega), if_neg (by omega)]

theorem toggleNext_of_mem {sel : List String} {i : String} (h : i ∈ sel) :
    toggleNext sel i = sel.filter (fun j => j != i) := by
  unfold toggleNext
  rw [if_pos (contains_true_iff.mpr h)]

theorem toggleNext_of_not_mem {sel : List String} {i : String} (h : i ∉ sel) :
    toggleNext sel i = sel ++ [i] := by
  unfold toggleNext
  rw [if_neg (fun hc => h (contains_true_iff.mp hc))]

/-! Claim theorems about the Selection Tracker. -/

/-- Claim C1, counterexample: with live blocks `a ↦ 2, b ↦ 3`, target `2`
and selection `["a", "b"]`, deselecting `"b"` leaves `["a"]` whose sum `2`
equals the target, so the source fires `EXACT_MATCH` (emptying the
selection) rather than the claimed unconditional `CONTINUE`: the sum check
of `handleBlockClick` also runs on a deselection. -/
theorem toggle_deselect_not_continue_cex :
    (toggle gridAB 2 ["a", "b"] "b").2 = Outcome.EXACT_MATCH ∧
    (toggle gridAB 2 ["a", "b"] "b").2 ≠ Outcome.CONTINUE := by
  exact ⟨by decide, by decide⟩

/-- Claim C1 (amended): deselecting an already-selected id removes it and
yields `CONTINUE` with the reduced set, provided the reduced set's resolved
sum stays strictly below the target — which holds for every selection the
tracker itself keeps alive (a kept selection always sums strictly below the
target when block values are positive).  For arbitrary selection inputs
whose remaining sum reaches the target, the deselection does trigger the
sum check (see the counterexample). -/
theorem toggle_deselect_reduced_continue (g : Grid) (target : Int)
    (sel : List String) (i : String)
    (hmem : i ∈ sel)
    (hlt : selectionSum g (sel.filter (fun j => j != i)) < target) :
    toggle g target sel i = (sel.filter (fun j => j != i), Outcome.CONTINUE) := by
  have hnext := toggleNext_of_mem hmem
  have h := toggle_continue_of_lt g target sel i (by rw [hnext]; exact hlt)
  rw [h, hnext]

/-- Witness for the amended claim C1 at a concrete input. -/
theorem toggle_deselect_reduced_continue_w :
    toggle gridAB 99 ["a", "b"] "b"
      = (["a", "b"].filter (fun j => j != "b"), Outcome.CONTINUE) :=
  toggle_deselect_reduced_continue gridAB 99 ["a", "b"] "b" (by decide) (by decide)

/-- Claim C5: when a toggle appends a new id, the sum `s` of the updated
selection (resolved against the live grid) is compared to the target by
exact integer equality: `s = target` gives `EXACT_MATCH` with an empty
selection, `s > target` gives `EXCEEDED` with an empty selection, and
`s < target` gives `CONTINUE` with the updated, non-empty selection. -/
theorem toggle_append_trichotomy (g : Grid) (target : Int) (sel : List String) (i : String)
    (hnew : i ∉ sel) :
    (selectionSum g (sel ++ [i]) = target →
        toggle g target sel i = ([], Outcome.EXACT_MATCH)) ∧
    (selectionSum g (sel ++ [i]) > target →
        toggle g target sel i = ([], Outcome.EXCEEDED)) ∧
    (selectionSum g (sel ++ [i]) < target →
        toggle g target sel i = (sel ++ [i], Outcome.CONTINUE) ∧ sel ++ [i] ≠ []) := by
  have hnext := toggleNext_of_not_mem hnew
  refine ⟨?_, ?_, ?_⟩ <;> intro h
  · simp only [toggle, hnext]
    rw [if_pos h]
  · simp only [toggle, hnext]
    rw [if_neg (by omega), if_pos h]
  · constructor
    · simp only [toggle, hnext]
      rw [if_neg (by omega), if_neg (by omega)]
    · simp

/-- Witness for claim C5 at a concrete input (sum 5 against target 5). -/
theorem toggle_append_trichotomy_w :
    (selectionSum gridV (([] : List String) ++ ["v"]) = 5 →
        toggle gridV 5 [] "v" = ([], Outcome.EXACT_MATCH)) ∧
    (selectionSum gridV (([] : List String) ++ ["v"]) > 5 →
        toggle gridV 5 [] "v" = ([], Outcome.EXCEEDED)) ∧
    (selectionSum gridV (([] : List String) ++ ["v"]) < 5 →
        toggle gridV 5 [] "v" = (([] : List String) ++ ["v"], Outcome.CONTINUE) ∧
          ([] : List String) ++ ["v"] ≠ []) :=
  toggle_append_trichotomy gridV 5 [] "v" (by decide)

/-- Claim C6, counterexample: with one live block `v ↦ 5` and target `5`,
toggling `"v"` twice from the empty selection produces `EXACT_MATCH` both
times — the second toggle does not return to `CONTINUE`, because the first
toggle consumed the selection. -/
theorem toggle_twice_not_continue_cex :
    (toggle gridV 5 (toggle gridV 5 [] "v").1 "v").2 ≠ Outcome.CONTINUE := by
  decide

/-- Claim C6 (amended): toggling the same id twice in succession returns to
`CONTINUE` with a selection containing exactly the ids of the original
duplicate-free selection `S` (the deselected-then-reselected id moves to the
end, so equality holds as a set/permutation), provided both intermediate
sums stay strictly below the target — as they do in any reachable tracker
state, where a kept selection sums strictly below the target.  Without that
proviso the first toggle can consume the selection (see the
counterexample). -/
theorem toggle_twice_roundtrip (g : Grid) (target : Int) (sel : List String) (i : String)
    (hnd : sel.Nodup)
    (h1 : selectionSum g (toggleNext sel i) < target)
    (h2 : selectionSum g (toggleNext (toggleNext sel i) i) < target) :
    (toggle g target (toggle g target sel i).1 i).2 = Outcome.CONTINUE ∧
    ((toggle g target (toggle g target sel i).1 i).1).Perm sel := by
  have e1 := toggle_continue_of_lt g target sel i h1
  have e2 := toggle_continue_of_lt g target (toggleNext sel i) i h2
  rw [e1]
  simp only [e2]
  refine ⟨trivial, ?_⟩
  by_cases hm : i ∈ sel
  · have hnext := toggleNext_of_mem hm
    have hni : i ∉ sel.filter (fun j => j != i) := by
      intro hin
      have := List.of_mem_filter hin
      simp at this
    have hnext2 := toggleNext_of_not_mem hni
    rw [hnext, hnext2]
    exact filter_bne_append_perm sel i hm hnd
  · have hnext := toggleNext_of_not_mem hm
    have hmem2 : i ∈ sel ++ [i] := by simp
    have hnext2 : toggleNext (sel ++ [i]) i = sel := by
      rw [toggleNext_of_mem hmem2, List.filter_append, filter_bne_of_not_mem hm]
      simp
    rw [hnext, hnext2]

/-- Witness for the amended claim C6 at a concrete input. -/
theorem toggle_twice_roundtrip_w :
    (toggle gridAB 99 (toggle gridAB 99 ["a"] "b").1 "b").2 = Outcome.CONTINUE ∧
    ((toggle gridAB 99 (toggle gridAB 99 ["a"] "b").1 "b").1).Perm ["a"] :=
  toggle_twice_roundtrip gridAB 99 ["a"] "b" (by decide) (by decide) (by decide)

/-- Claim C9: an id in the selection that resolves to no live block of the
grid contributes value `0` to the sum (`b?.value || 0`), and the sum of a
selection extended with such an id is unchanged; the toggle is a total
function, so no failure can occur. -/
theorem missing_id_zero (g : Grid) (i : String) (sel : List String)
    (h : ∀ b ∈ liveBlocks g, b.id ≠ i) :
    resolveValue g i = 0 ∧ selectionSum g (sel ++ [i]) = selectionSum g sel := by
  have hz : resolveValue g i = 0 := by
    unfold resolveValue
    have hfind : g.flatten.find? (fun o =>
        match o with
        | some b => b.id == i
        | none => false) = none := by
      apply List.find?_eq_none.mpr
      intro o ho
      cases o with
      | none => simp
      | some b =>
        have hb : b ∈ liveBlocks g := by
          unfold liveBlocks
          exact List.mem_filterMap.mpr ⟨some b, ho, rfl⟩
        simpa using h b hb
    rw [hfind]
  exact ⟨hz, by rw [selectionSum_append, hz, add_zero]⟩

/-- Witness for claim C9 at a concrete input. -/
theorem missing_id_zero_w :
    resolveValue gridAB "zz" = 0 ∧
    selectionSum gridAB (["a"] ++ ["zz"]) = selectionSum gridAB ["a"] :=
  missing_id_zero gridAB "zz" ["a"] (by decide)

/-! Claim theorems about row insertion. -/

/-- Claim C2: `addNewRow` on a grid whose top row has at least one non-empty
cell sets the game-over flag and returns the grid unchanged — the occupancy
check happens before any mutation, so the failing call performs no partial
shift or append. -/
theorem addNewRow_occupied_gameOver_frame (R C TL : Nat) (mk : Nat → Block) (s : AppState)
    (h : ∃ o ∈ s.grid.headD [], o.isSome = true) :
    (addNewRow R C TL mk s).isGameOver = true ∧
    (addNewRow R C TL mk s).grid = s.grid := by
  have hocc : topRowOccupied s.grid = true := by
    unfold topRowOccupied
    exact List.any_eq_true.mpr h
  unfold addNewRow
  rw [if_pos hocc]
  exact ⟨rfl, rfl⟩

/-- Witness for claim C2 at a concrete input. -/
theorem addNewRow_occupied_gameOver_frame_w :
    (addNewRow 1 2 30 mkOne stateTop).isGameOver = true ∧
    (addNewRow 1 2 30 mkOne stateTop).grid = stateTop.grid :=
  addNewRow_occupied_gameOver_frame 1 2 30 mkOne stateTop (by decide)

/-- Claim C3: `addNewRow` on a grid with an entirely empty top row shifts
every row up (new rows `0 .. R-2` are the prior rows `1 .. R-1`, so the
prior row `R-1`'s content is gone) and writes at row `R-1` a brand-new full
row of exactly `C` freshly created non-empty blocks; the grid stays `R`
rows tall. -/
theorem addNewRow_shift_fresh_row (R C TL : Nat) (mk : Nat → Block) (s : AppState) (r : Nat)
    (hlen : s.grid.length = R)
    (hEmpty : ∀ o ∈ s.grid.headD [], o = none)
    (hr : r < R - 1) :
    ((addNewRow R C TL mk s).grid)[r]? = s.grid[r + 1]? ∧
    ((addNewRow R C TL mk s).grid)[R - 1]? = some ((List.range C).map (fun c => some (mk c))) ∧
    ((List.range C).map (fun c => some (mk c))).length = C ∧
    ((List.range C).map (fun c => some (mk c))).all (fun o => o.isSome) = true ∧
    ((addNewRow R C TL mk s).grid).length = R := by
  have hocc : topRowOccupied s.grid = false := by
    unfold topRowOccupied
    apply List.any_eq_false.mpr
    intro o ho
    rw [hEmpty o ho]
    simp
  have hgrid : (addNewRow R C TL mk s).grid
      = (List.range (R - 1)).map (fun j => (s.grid[j + 1]?).getD [])
          ++ [(List.range C).map (fun c => some (mk c))] := by
    unfold addNewRow
    rw [if_neg (by simp [hocc])]
  refine ⟨?_, ?_, by simp, by simp, ?_⟩
  · rw [hgrid, List.getElem?_append_left (by simpa using hr),
      List.getElem?_map, List.getElem?_range hr]
    have hlt : r + 1 < s.grid.length := by omega
    simp [List.getElem?_eq_getElem hlt]
  · rw [hgrid, List.getElem?_append_right (by simp)]
    simp
  · rw [hgrid]
    simp
    omega

/-- Witness for claim C3 at a concrete input. -/
theorem addNewRow_shift_fresh_row_w :
    ((addNewRow 2 1 30 mkOne stateShift).grid)[0]? = stateShift.grid[0 + 1]? ∧
    ((addNewRow 2 1 30 mkOne stateShift).grid)[2 - 1]?
      = some ((List.range 1).map (fun c => some (mkOne c))) ∧
    ((List.range 1).map (fun c => some (mkOne c))).length = 1 ∧
    ((List.range 1).map (fun c => some (mkOne c))).all (fun o => o.isSome) = true ∧
    ((addNewRow 2 1 30 mkOne stateShift).grid).length = 2 :=
  addNewRow_shift_fresh_row 2 1 30 mkOne stateShift 0 (by decide) (by decide) (by decide)

/-- Claim C10: every `addNewRow` call resets the countdown to the configured
tick interval `TL`, in the success branch and in the failing (game-over)
branch alike — the trailing `setTimeLeft(TIME_LIMIT)` of the source runs
unconditionally, so the countdown is not part of the state left unchanged
on failure. -/
theorem addNewRow_resets_timeLeft (R C TL : Nat) (mk : Nat → Block) (s : AppState) :
    (addNewRow R C TL mk s).timeLeft = TL := by
  unfold addNewRow
  split <;> rfl

/-! Gravity: the imperative per-column loop of `removeBlocks` is shown to
equal the clean "empties on top, survivors at the bottom" description. -/

theorem getElem?_append_len (ys : List α) (x : α) (zs : List α) :
    (ys ++ x :: zs)[ys.length]? = some x := by
  rw [List.getElem?_append_right (Nat.le_refl _)]
  simp

theorem set_append_add (ys zs : List α) (k : Nat) (v : α) :
    (ys ++ zs).set (ys.length + k) v = ys ++ zs.set k v := by
  rw [List.set_append, if_neg (by omega), Nat.add_sub_cancel_left]

theorem set_append_len (ys : List α) (x v : α) (zs : List α) :
    (ys ++ x :: zs).set ys.length v = ys ++ v :: zs := by
  have h := set_append_add ys (x :: zs) 0 v
  rw [Nat.add_zero] at h
  exact h

theorem range_map_getD (l : List α) (d : α) :
    (List.range l.length).map (fun i => (l[i]?).getD d) = l := by
  induction l with
  | nil => rfl
  | cons x xs ih =>
    rw [List.length_cons, List.range_succ_eq_map, List.map_cons, List.map_map]
    simp only [Function.comp_def, List.getElem?_cons_succ, List.getElem?_cons_zero,
      Option.getD_some, List.cons.injEq]
    exact ⟨trivial, ih⟩

theorem countP_none_add_filterMap (l : List (Option Block)) :
    l.countP (fun o => o.isNone) + (l.filterMap (fun o => o)).length = l.length := by
  induction l with
  | nil => rfl
  | cons o l ih =>
    cases o <;> simp [List.countP_cons, List.filterMap_cons] <;> omega

theorem gravityPass_cons (col : List (Option Block)) (r e : Nat) :
    gravityPass col (r + 1) e
      = match (col[r]?).getD none with
        | some b => gravityPass ((col.set r none).set e (some b)) r (e - 1)
        | none => gravityPass col r e := rfl

theorem gravityPass_step_none (col : List (Option Block)) (r e : Nat)
    (h : (col[r]?).getD none = none) :
    gravityPass col (r + 1) e = gravityPass col r e := by
  rw [gravityPass_cons, h]

theorem gravityPass_step_some (col : List (Option Block)) (r e : Nat) (b : Block)
    (h : (col[r]?).getD none = some b) :
    gravityPass col (r + 1) e = gravityPass ((col.set r none).set e (some b)) r (e - 1) := by
  rw [gravityPass_cons, h]

theorem replicate_succ_set (k : Nat) (b : Block) (p : List (Option Block)) :
    (List.replicate (k + 1) (none : Option Block) ++ p).set k (some b)
      = List.replicate k none ++ some b :: p := by
  induction k with
  | zero => rfl
  | succ n ih =>
    rw [List.replicate_succ (none : Option Block) (n + 1), List.cons_append]
    simp only [List.set]
    rw [ih, List.replicate_succ (none : Option Block) n, List.cons_append]

theorem gravityPass_spec (pre : List (Option Block)) : ∀ (k : Nat) (vs : List Block) (e : Nat),
    (pre.length + k = e + 1 ∨ pre = []) →
    gravityPass (pre ++ (List.replicate k none ++ vs.map some)) pre.length e
      = List.replicate (k + pre.countP (fun o => o.isNone)) none
          ++ ((pre.filterMap (fun o => o)) ++ vs).map some := by
  induction pre using List.reverseRecOn with
  | nil =>
    intro k vs e _
    simp [gravityPass]
  | append_singleton ys x ih =>
    intro k vs e h
    have he : e = ys.length + k := by
      rcases h with h | h
      · simp at h
        omega
      · exact absurd h (by simp)
    subst he
    have hcol : (ys ++ [x]) ++ (List.replicate k none ++ vs.map some)
        = ys ++ x :: (List.replicate k none ++ vs.map some) := by
      simp
    rw [hcol, show (ys ++ [x]).length = ys.length + 1 from by simp]
    cases x with
    | none =>
      rw [gravityPass_step_none _ _ _ (by rw [getElem?_append_len]; rfl)]
      rw [show (none : Option Block) :: (List.replicate k none ++ vs.map some)
          = List.replicate (k + 1) none ++ vs.map some from by simp [List.replicate_succ]]
      rw [ih (k + 1) vs (ys.length + k) (Or.inl (by omega))]
      have hcnt : (k + 1) + ys.countP (fun o => o.isNone)
          = k + (ys ++ [(none : Option Block)]).countP (fun o => o.isNone) := by
        simp [List.countP_append, List.countP_cons]
        omega
      rw [← hcnt]
      simp [List.filterMap_append]
    | some b =>
      rw [gravityPass_step_some _ _ _ b (by rw [getElem?_append_len]; rfl)]
      rw [set_append_len]
      rw [show (none : Option Block) :: (List.replicate k none ++ vs.map some)
          = List.replicate (k + 1) none ++ vs.map some from by simp [List.replicate_succ]]
      rw [set_append_add]
      rw [replicate_succ_set k b (vs.map some)]
      rw [show (List.replicate k (none : Option Block) ++ some b :: vs.map some)
          = List.replicate k none ++ (b :: vs).map some from by simp]
      have harg : ys.length + k = (ys.length + k - 1) + 1 ∨ ys = [] := by
        rcases Nat.eq_zero_or_pos (ys.length + k) with h0 | h0
        · right
          exact List.length_eq_zero.mp (by omega)
        · left
          omega
      rw [ih k (b :: vs) (ys.length + k - 1) harg]
      simp [List.countP_append, List.countP_cons, List.filterMap_append, List.filterMap_cons]

theorem gravityCol_eq (col : List (Option Block)) :
    gravityCol col
      = List.replicate (col.countP (fun o => o.isNone)) none
          ++ (col.filterMap (fun o => o)).map some := by
  have harg : col.length + 0 = (col.length - 1) + 1 ∨ col = [] := by
    cases col with
    | nil => exact Or.inr rfl
    | cons a l =>
      left
      simp only [List.length_cons]
      omega
  have h := gravityPass_spec col 0 [] (col.length - 1) harg
  simpa [gravityCol] using h

theorem gravityCol_length (col : List (Option Block)) :
    (gravityCol col).length = col.length := by
  have h := countP_none_add_filterMap col
  rw [gravityCol_eq]
  simp only [List.length_append, List.length_replicate, List.length_map]
  omega

theorem getCol_length (g : Grid) (c : Nat) : (getCol g c).length = g.length := by
  simp [getCol]

theorem getCol_compactGravity (R C : Nat) (g : Grid) (c : Nat)
    (hg : g.length = R) (hc : c < C) :
    getCol (compactGravity R C g) c = gravityCol (getCol g c) := by
  have hL : (gravityCol (getCol g c)).length = R := by
    rw [gravityCol_length, getCol_length, hg]
  conv_lhs => rw [getCol, compactGravity, List.map_map]
  have hfun : ((fun (row : List (Option Block)) => (row[c]?).getD none) ∘ fun (r : Nat) =>
      (List.range C).map (fun c' => ((gravityCol (getCol g c'))[r]?).getD none))
      = fun (r : Nat) => ((gravityCol (getCol g c))[r]?).getD none := by
    funext r
    simp only [Function.comp_apply]
    rw [List.getElem?_map, List.getElem?_range hc]
    rfl
  rw [hfun, ← hL, range_map_getD]

/-- Claim C4: gravity compaction acts on each column independently (the
compacted column is a function of that column alone), and on every column it
preserves both the relative vertical order and the multiset of non-empty
values — the compacted column is exactly the empties (as many as the column
had) on top, followed by the column's non-empty cells in their original
top-to-bottom order, contiguous at the bottom. -/
theorem compactGravity_column_spec (R C : Nat) (g : Grid) (c : Nat)
    (hg : g.length = R) (hc : c < C) :
    getCol (compactGravity R C g) c
      = List.replicate ((getCol g c).countP (fun o => o.isNone)) none
          ++ ((getCol g c).filterMap (fun o => o)).map some := by
  rw [getCol_compactGravity R C g c hg hc, gravityCol_eq]

/-- Witness for claim C4 at a concrete input. -/
theorem compactGravity_column_spec_w :
    getCol (compactGravity 2 2 gridHoles) 0
      = List.replicate ((getCol gridHoles 0).countP (fun o => o.isNone)) none
          ++ ((getCol gridHoles 0).filterMap (fun o => o)).map some :=
  compactGravity_column_spec 2 2 gridHoles 0 (by decide) (by decide)

/-! Claim theorems about the session orchestration (`handleBlockClick`). -/

theorem addNewRow_score (R C TL : Nat) (mk : Nat → Block) (s : AppState) :
    (addNewRow R C TL mk s).score = s.score := by
  unfold addNewRow
  split <;> rfl

/-- Claim C7: a processed toggle classified `EXCEEDED` (sum strictly greater
than the target) resets the selection to empty while the grid and the score
are left unchanged — no blocks are removed on an overshoot. -/
theorem exceeded_frame (R C TL : Nat) (mk : Nat → Block) (tgt : Int) (s : AppState) (b : Block)
    (hgo : s.isGameOver = false) (hp : s.isPaused = false)
    (hex : (toggle s.grid s.targetSum s.selectedIds b.id).2 = Outcome.EXCEEDED) :
    (handleBlockClick R C TL mk tgt s b).selectedIds = [] ∧
    (handleBlockClick R C TL mk tgt s b).grid = s.grid ∧
    (handleBlockClick R C TL mk tgt s b).score = s.score := by
  have hne : ¬ selectionSum s.grid (toggleNext s.selectedIds b.id) = s.targetSum := by
    intro h1
    simp [toggle, h1] at hex
  have hgt : selectionSum s.grid (toggleNext s.selectedIds b.id) > s.targetSum := by
    by_cases h2 : selectionSum s.grid (toggleNext s.selectedIds b.id) > s.targetSum
    · exact h2
    · exfalso
      simp [toggle, hne, h2] at hex
  have hcond : (s.isGameOver || s.isPaused) = false := by
    rw [hgo, hp]
    rfl
  simp only [handleBlockClick, hcond, Bool.false_eq_true, if_false, if_neg hne, if_pos hgt]
  exact ⟨trivial, trivial, trivial⟩

/-- Witness for claim C7 at a concrete input (target 3, clicked value 5). -/
theorem exceeded_frame_w :
    (handleBlockClick 1 1 30 mkOne 4 stateV blockV).selectedIds = [] ∧
    (handleBlockClick 1 1 30 mkOne 4 stateV blockV).grid = stateV.grid ∧
    (handleBlockClick 1 1 30 mkOne 4 stateV blockV).score = stateV.score :=
  exceeded_frame 1 1 30 mkOne 4 stateV blockV (by decide) (by decide) (by decide)

theorem click_exact_score (R C TL : Nat) (mk : Nat → Block) (tgt : Int) (s : AppState) (b : Block)
    (hgo : s.isGameOver = false) (hp : s.isPaused = false)
    (hsum : selectionSum s.grid (toggleNext s.selectedIds b.id) = s.targetSum) :
    (handleBlockClick R C TL mk tgt s b).score
      = s.score + ((toggleNext s.selectedIds b.id).length : Int) * 10 := by
  have hcond : (s.isGameOver || s.isPaused) = false := by
    rw [hgo, hp]
    rfl
  simp only [handleBlockClick, hcond, Bool.false_eq_true, if_false, if_pos hsum]
  split
  · rw [addNewRow_score]
    rfl
  · rfl

theorem matchRun_score (R C TL : Nat) (s : AppState) (ks : List Nat) (s' : AppState)
    (h : MatchRun R C TL s ks s') : s'.score = s.score + 10 * (ks.sum : Int) := by
  induction h with
  | nil s => simp
  | step s b mk tgt k ks s' hgo hp hsum hclr hlen hrest ih =>
    rw [click_exact_score R C TL mk tgt s b hgo hp hsum, hlen] at ih
    rw [ih]
    push_cast [List.sum_cons]
    ring

/-- Claim C8: from a freshly initialised session the cumulative score is `0`,
and after a run of `N` successful matches that clear `k1 .. kN` blocks
respectively (each match adds `10` points per selected id, and each selected
id clears exactly one live block) the score equals `10 × Σ ki`; the score is
non-negative throughout, and by the same run equation every intermediate
score is a partial sum, so the score never decreases within a session. -/
theorem score_after_matches (R C IR TL : Nat) (mk : Nat → Block) (tgt hs : Int)
    (mode : GameMode) (ks : List Nat) (s' : AppState)
    (hrun : MatchRun R C TL (initGame R C IR TL mk tgt mode hs) ks s') :
    (initGame R C IR TL mk tgt mode hs).score = 0 ∧
    s'.score = 10 * (ks.sum : Int) ∧
    (initGame R C IR TL mk tgt mode hs).score ≤ s'.score := by
  have h := matchRun_score R C TL _ ks s' hrun
  have h0 : (initGame R C IR TL mk tgt mode hs).score = 0 := rfl
  rw [h0, zero_add] at h
  refine ⟨h0, h, ?_⟩
  rw [h0, h]
  positivity

/-- Witness for claim C8: a one-match run (one block of value 5 cleared
against target 5) scores `10 × 1` from a fresh session. -/
theorem score_after_matches_w :
    (initGame 2 1 1 30 mkFive 5 GameMode.time 0).score = 0 ∧
    (handleBlockClick 2 1 30 mkFive 7 (initGame 2 1 1 30 mkFive 5 GameMode.time 0)
        (createBlock "1" 5)).score = 10 * (([1] : List Nat).sum : Int) ∧
    (initGame 2 1 1 30 mkFive 5 GameMode.time 0).score
      ≤ (handleBlockClick 2 1 30 mkFive 7 (initGame 2 1 1 30 mkFive 5 GameMode.time 0)
          (createBlock "1" 5)).score :=
  score_after_matches 2 1 1 30 mkFive 5 0 GameMode.time [1]
    (handleBlockClick 2 1 30 mkFive 7 (initGame 2 1 1 30 mkFive 5 GameMode.time 0)
      (createBlock "1" 5))
    (MatchRun.step _ (createBlock "1" 5) mkFive 7 1 [] _
      (by decide) (by decide) (by decide) (by decide) (by decide)
      (MatchRun.nil _))

end SumGame
